import Mathlib

/-!
Shallow embedding of the MPU9150 MicroPython driver (mpu9150.py) for checking
the natural-language specification against the code.

Modelling conventions:
* Bytes coming over the I2C bus are natural numbers; a bus buffer is a
  `List Nat`.
* A single bus transaction either fails (MicroPython raises `OSError`:
  timeout, NACK or I/O failure) or returns the bytes read; this is the
  `BusOutcome` oracle fed to each embedded operation.
* Python float arithmetic on the small decimal literals of the source
  (0.5, 3.33198, divisions by 128 and 8) is modelled exactly over `ℚ`;
  every claim settled here depends only on values that are computed
  identically in binary floating point and in exact arithmetic.
* Each embedded operation returns, besides its result, the final state of
  the mutated fields and (where a claim needs it) the trace of bus
  operations it issued.
-/

/-- Outcome of one bus transaction: `fail` models a raised `OSError`
(timeout/NACK/IO), `ok bs` a successful transfer returning bytes `bs`
(for a write the payload is ignored). -/
inductive BusOutcome where
  | fail : BusOutcome
  | ok : List Nat → BusOutcome
deriving DecidableEq

/-- One bus operation as issued by the driver: `write data memaddr devaddr`
models `self._write(data, memaddr, devaddr)`, `read count memaddr devaddr`
models `self._read(count, memaddr, devaddr)`. -/
inductive BusOp where
  | write : Nat → Nat → Nat → BusOp
  | read : Nat → Nat → Nat → BusOp
deriving DecidableEq

/-- Fixed magnetometer sub-device address (`MPU9150._mag_addr = 12`). -/
def mag_addr : Nat := 12

/-- Embedding of `MPU9150._read` (mpu9150.py lines 95-108).

Python source:
  irq_state = True
  if self.disable_interrupts:
      irq_state = pyb.disable_irq()
  result = self._mpu_i2c.mem_read(count, devaddr, memaddr, timeout=self.timeout)
  pyb.enable_irq(irq_state)
  return result

`irq0` is the interrupt-enabled flag before the call; `pyb.disable_irq()`
returns that prior flag and clears it; `pyb.enable_irq(b)` sets it to `b`.
There is no try/finally: when `mem_read` raises, `pyb.enable_irq` is never
executed and the exception propagates.  The function returns the result
(`none` = the `OSError` propagated) and the interrupt-enabled flag at the
moment `_read` is left. -/
def mpu_read (disable_interrupts irq0 : Bool) (bus : BusOutcome) :
    Option (List Nat) × Bool :=
  let irq_state := if disable_interrupts then irq0 else true
  let irqDuring := if disable_interrupts then false else irq0
  match bus with
  | .fail => (none, irqDuring)
  | .ok b => (some b, irq_state)

/-- Embedding of `MPU9150._write` (mpu9150.py lines 111-123), identical
control flow to `mpu_read` with `mem_write` in place of `mem_read`.
`busOk = false` models `mem_write` raising `OSError`. -/
def mpu_write (disable_interrupts irq0 : Bool) (busOk : Bool) :
    Option Unit × Bool :=
  let irq_state := if disable_interrupts then irq0 else true
  let irqDuring := if disable_interrupts then false else irq0
  if busOk then (some (), irq_state) else (none, irqDuring)

/-- Mutable state shared by one `make_magread` closure and its device:
`init` is the captured `init` variable of the closure produced by
`get_mag_status` (mpu9150.py line 348), `mag_ready` is `self.mag_ready`
(line 62). -/
structure MagState where
  init : Bool
  mag_ready : Bool
deriving DecidableEq

/-- Abstract acquisition state of the spec (section 3) read off the
concrete driver state: `init = true` means no trigger issued yet (Idle);
with `init = false`, `mag_ready = true` means DataReady observed (Ready),
otherwise a conversion is pending (Triggered).  The driver keeps no error
latch, so no concrete state maps to `Error`. -/
inductive AcqState where
  | Idle : AcqState
  | Triggered : AcqState
  | Ready : AcqState
  | Error : AcqState
deriving DecidableEq

def acqAbstract (s : MagState) : AcqState :=
  if s.init then .Idle else if s.mag_ready then .Ready else .Triggered

/-- Embedding of one invocation of the closure returned by
`MPU9150.get_mag_status` (mpu9150.py lines 349-362).

Python source:
  try:
      if init:
          self._write(0x01, 0x0A, self.mag_addr)
          init = False
          return None
      if self._read(1, 0x02, self.mag_addr) == b'\x01':
          self.mag_ready = True
          return 1
      return None
  except OSError:
      return 2

Returns the new state, the Python return value (`none`/`some 1`/`some 2`
for `None`/`1`/`2`) and the trace of bus operations issued.  On `OSError`
the assignments after the failing transaction are skipped, so the state is
returned unchanged. -/
def make_magread_step (s : MagState) (bus : BusOutcome) :
    MagState × Option Nat × List BusOp :=
  if s.init then
    match bus with
    | .fail => (s, some 2, [.write 1 10 mag_addr])
    | .ok _ => ({ s with init := false }, none, [.write 1 10 mag_addr])
  else
    match bus with
    | .fail => (s, some 2, [.read 1 2 mag_addr])
    | .ok b =>
      if b = [1] then ({ s with mag_ready := true }, some 1, [.read 1 2 mag_addr])
      else (s, none, [.read 1 2 mag_addr])

/-- Result of the spin loop `while self._read(1, 0x02, self.mag_addr) != b'\x01'`
in `get_mag_raw`: `ready` = a read returned `b'\x01'`, `err` = a read raised
`OSError`, `spin` = the supplied list of responses was exhausted with the
loop still spinning (the real loop would keep reading). -/
inductive WaitRes where
  | ready : WaitRes
  | err : WaitRes
  | spin : WaitRes
deriving DecidableEq

/-- The status spin loop of `get_mag_raw` (mpu9150.py lines 334-335), fed
one `BusOutcome` per iteration; also returns the trace of status reads. -/
def magWaitLoop : List BusOutcome → WaitRes × List BusOp
  | [] => (.spin, [])
  | r :: rest =>
    match r with
    | .fail => (.err, [.read 1 2 mag_addr])
    | .ok b =>
      if b = [1] then (.ready, [.read 1 2 mag_addr])
      else
        let w := magWaitLoop rest
        (w.1, .read 1 2 mag_addr :: w.2)

/-- Embedding of `MPU9150.get_mag_raw` (mpu9150.py lines 327-340).

Python source:
  try:
      if not self.mag_ready:
          self._write(0x01, 0x0A, self.mag_addr)
          while self._read(1, 0x02, self.mag_addr) != b'\x01':
              pass
      mxyz = self._read(6, 0x03, self.mag_addr)
      self.mag_ready = False
  except OSError:
      mxyz = b'\x00\x00\x00\x00\x00\x00'
  return mxyz

Inputs: the current `self.mag_ready`, the outcome of the trigger write (used
only when `mag_ready` is false), the list of status-read outcomes for the
spin loop, and the outcome of the six-byte burst read.  Output: `some
(bytes, mag_ready')` for a returning call (first the returned buffer, then
the final `self.mag_ready`) together with the bus-operation trace; `none`
when the supplied status responses run out with the loop still spinning.
Note that `self.mag_ready = False` executes only after a *successful* burst
read; on `OSError` the flag keeps its previous value. -/
def get_mag_raw (mag_ready : Bool) (trig : BusOutcome)
    (statuses : List BusOutcome) (burst : BusOutcome) :
    Option (List Nat × Bool) × List BusOp :=
  if mag_ready then
    match burst with
    | .fail => (some ([0, 0, 0, 0, 0, 0], mag_ready), [.read 6 3 mag_addr])
    | .ok b => (some (b, false), [.read 6 3 mag_addr])
  else
    match trig with
    | .fail => (some ([0, 0, 0, 0, 0, 0], false), [.write 1 10 mag_addr])
    | .ok _ =>
      let w := magWaitLoop statuses
      match w.1 with
      | .err => (some ([0, 0, 0, 0, 0, 0], false), .write 1 10 mag_addr :: w.2)
      | .spin => (none, .write 1 10 mag_addr :: w.2)
      | .ready =>
        match burst with
        | .fail =>
          (some ([0, 0, 0, 0, 0, 0], false),
            .write 1 10 mag_addr :: w.2 ++ [.read 6 3 mag_addr])
        | .ok b =>
          (some (b, false), .write 1 10 mag_addr :: w.2 ++ [.read 6 3 mag_addr])

/-- Python `int()` applied to a real value: truncation toward zero. -/
def pyTrunc (q : ℚ) : ℤ := if 0 ≤ q then ⌊q⌋ else ⌈q⌉

/-- The divider byte written by `MPU9150.sample_rate` (mpu9150.py lines
186-189):
  rate_div = int( gyro_rate/rate - 1 )     with gyro_rate = 8000
  if rate_div > 255: rate_div = 255
No clamp below 0 exists in the source; for positive `hz` the truncation
already yields a nonnegative value. -/
def rateDiv (hz : ℚ) : ℤ :=
  if pyTrunc (8000 / hz - 1) > 255 then 255 else pyTrunc (8000 / hz - 1)

/-- The rate returned by `MPU9150.sample_rate` (line 192):
  rate = gyro_rate/(unp('<H', self._read(1, 0x19, self.mpu_addr))[0]+1)
modelled with the read-back equal to the divider just written.  (The source
unpacks the single register byte with format '<H'; the byte is the low
byte, the out-of-buffer high byte is modelled as 0, which is the register
read-back abstraction the spec uses.) -/
def sampleRateRet (hz : ℚ) : ℚ := 8000 / ((rateDiv hz : ℚ) + 1)

/-- One divider step's worth of rate change at the divider the code chose
for `hz`: the difference between the rates of divider `d` and `d+1`. -/
def stepMargin (hz : ℚ) : ℚ :=
  8000 / ((rateDiv hz : ℚ) + 1) - 8000 / ((rateDiv hz : ℚ) + 2)

/-- Modelled from the spec wording of the claim, for comparison with the
source's computation: the divider is claimed to be `round(8000/hz) - 1`
clamped to the range 0-255 (`round` is round-half-up here; the inputs used
to compare never hit a tie). -/
def specRateDiv (hz : ℚ) : ℤ := max 0 (min 255 (round ((8000 : ℚ) / hz) - 1))

/-- Embedding of `MPU9150.accel_range` (mpu9150.py lines 198-220).

Python source:
  try:
      if accel_range is None: pass
      else:
          ar = (0x00, 0x08, 0x10, 0x18)
          try: self._write(ar[accel_range], 0x1C, self.mpu_addr)
          except IndexError: print('accel_range can only be 0, 1, 2 or 3')
      ari = int(unp('<H', self._read(1, 0x1C, self.mpu_addr))[0]/8)
  except OSError:
      ari = None
  if ari is not None:
      self._ar = ari
  return ari

`arg` is the method argument (`none` = Python `None`), `writeRes` the
outcome of the register write (consulted only when a write is attempted,
i.e. `arg = some i` with `i < 4`; an out-of-range index raises IndexError,
which is caught without writing), `readRes` the outcome of the read-back
and `ar` the cached `self._ar`.  Returns `(ari, new self._ar)`; the
read-back byte is the low byte of the '<H' unpack, divided by 8 and
truncated by `int()` (natural-number division). -/
def accel_range (arg : Option Nat) (writeRes : BusOutcome)
    (readRes : BusOutcome) (ar : Nat) : Option Nat × Nat :=
  let setFailed : Bool :=
    match arg with
    | none => false
    | some i =>
      if i < 4 then (match writeRes with | .fail => true | .ok _ => false)
      else false
  if setFailed then (none, ar)
  else
    match readRes with
    | .fail => (none, ar)
    | .ok b =>
      let ari := b.getD 0 0 / 8
      (some ari, ari)

/-- Embedding of `MPU9150.gyro_range` (mpu9150.py lines 223-246): register
0x1B in place of 0x1C and cache `self._gr` in place of `self._ar`, with the
identical control flow as `accel_range`. -/
def gyro_range (arg : Option Nat) (writeRes : BusOutcome)
    (readRes : BusOutcome) (gr : Nat) : Option Nat × Nat :=
  let setFailed : Bool :=
    match arg with
    | none => false
    | some i =>
      if i < 4 then (match writeRes with | .fail => true | .ok _ => false)
      else false
  if setFailed then (none, gr)
  else
    match readRes with
    | .fail => (none, gr)
    | .ok b =>
      let gri := b.getD 0 0 / 8
      (some gri, gri)

/-- The per-axis correction coefficient of `MPU9150._get_mag_corrections`
(mpu9150.py lines 372-374): `(0.5*(data[i] - 128))/128 + 1` for trim byte
`data[i]`, with the float literals modelled exactly. -/
def magCorrectionCoeff (t : Nat) : ℚ := (1 / 2) * ((t : ℚ) - 128) / 128 + 1

/-- Embedding of `MPU9150._get_mag_corrections` (lines 365-375) applied to
the three trim bytes read from ROM after the ROM-read trigger write. -/
def get_mag_corrections (d : Nat × Nat × Nat) : ℚ × ℚ × ℚ :=
  (magCorrectionCoeff d.1, magCorrectionCoeff d.2.1, magCorrectionCoeff d.2.2)

/-- The value of `self.mag_correction` after `MPU9150.__init__` (lines
84-88):
  self.mag_correction = (1.0, 1.0, 1.0)
  try: self.mag_correction = self._get_mag_corrections()
  except OSError: print(MPU9150._I2Cerror)
`trim = none` models a transport failure (OSError) anywhere inside
`_get_mag_corrections` (trigger write or trim read); `trim = some d` the
successful read of the three trim bytes `d`. -/
def mag_correction_init (trim : Option (Nat × Nat × Nat)) : ℚ × ℚ × ℚ :=
  match trim with
  | none => (1, 1, 1)
  | some d => get_mag_corrections d

/-- Little-endian signed 16-bit decode of two bytes, i.e. `unp('<h', bs)`
for `bs = [b0, b1]`. -/
def le16 (b0 b1 : Nat) : ℤ :=
  if b0 + 256 * b1 < 32768 then ((b0 + 256 * b1 : Nat) : ℤ)
  else ((b0 + 256 * b1 : Nat) : ℤ) - 65536

/-- The magnetometer sensitivity constant of `MPU9150.get_mag` (line 385),
`scale = 3.33198`, modelled exactly. -/
def magScale : ℚ := 333198 / 100000

/-- The per-axis value of the dictionary built in `MPU9150.get_mag`
(mpu9150.py lines 387-389):
  mxyz = {'y': unp('<h', raw[0:2])[0]*self.mag_correction[1]/scale,
          'x': unp('<h', raw[2:4])[0]*self.mag_correction[0]/scale,
          'z': -unp('<h', raw[4:6])[0]*self.mag_correction[2]/scale}
`raw` is the six-byte buffer from `get_mag_raw`, `corr` the tuple
`self.mag_correction`.  Characters outside x/y/z would raise KeyError in
Python; the model returns 0 for them and claims only quantify over x/y/z. -/
def magComponent (raw : List Nat) (corr : ℚ × ℚ × ℚ) (c : Char) : ℚ :=
  if c = 'y' then ((le16 (raw.getD 0 0) (raw.getD 1 0) : ℚ)) * corr.2.1 / magScale
  else if c = 'x' then ((le16 (raw.getD 2 0) (raw.getD 3 0) : ℚ)) * corr.1 / magScale
  else if c = 'z' then -((le16 (raw.getD 4 0) (raw.getD 5 0) : ℚ)) * corr.2.2 / magScale
  else 0

/-- Embedding of the output loop of `MPU9150.get_mag` (lines 391-394): one
output element per requested axis character, in the requested order. -/
def get_mag (xyz : List Char) (raw : List Nat) (corr : ℚ × ℚ × ℚ) : List ℚ :=
  xyz.map (magComponent raw corr)

/-- C1: the claim says every call to `_read`/`_write` with the
interrupt-disable policy enabled restores the prior interrupt state on
every exit path, including transport errors.  The code has no try/finally:
evaluating the embedding at the failing input (policy enabled, prior
interrupt state enabled, transaction raising `OSError`) shows the exception
propagates with interrupts still disabled, while the success path does
restore the prior state. -/
theorem C1_irq_not_restored_on_error :
    (mpu_read true true .fail).2 = false ∧
    (mpu_write true true false).2 = false ∧
    (∀ b : List Nat, (mpu_read true true (.ok b)).2 = true) ∧
    (mpu_write true true true).2 = true :=
  ⟨rfl, rfl, fun _ => rfl, rfl⟩

/-- C2 counterexample: with `mag_ready = true` (DataReady already reported)
and the six-byte burst read failing, `get_mag_raw` returns the zeroed
sample but leaves `mag_ready = true`; the claim's demand that the state
return to Idle (`mag_ready` cleared) is false at this input. -/
theorem C2_counterexample :
    (get_mag_raw true (.ok []) [] .fail).1 = some ([0, 0, 0, 0, 0, 0], true) ∧
    ¬ (get_mag_raw true (.ok []) [] .fail).1 = some ([0, 0, 0, 0, 0, 0], false) := by
  decide

/-- C2 amended: when `mag_ready` is true, a transport failure during the
burst read yields the zeroed sample with `mag_ready` left unchanged (still
true, so the next call skips the trigger and retries only the burst read);
`mag_ready` is cleared only by a successful burst read. -/
theorem C2_zero_sample_ready_kept (trig : BusOutcome) (sts : List BusOutcome)
    (b : List Nat) :
    (get_mag_raw true trig sts .fail).1 = some ([0, 0, 0, 0, 0, 0], true) ∧
    (get_mag_raw true trig sts (.ok b)).1 = some (b, false) :=
  ⟨rfl, rfl⟩

/-- C3: poller happy path.  A fresh poller starts in the Idle abstract
state; its first invocation issues exactly the magnetometer trigger write
and returns Pending (`None`); while the status register reads anything
other than `b'\x01'` the poller stays Triggered and returns Pending; when
the status register reads `b'\x01'` it returns DataReady (`1`) and sets
`mag_ready`; a subsequent successful raw read returns the sample and
clears `mag_ready` (back to Idle). -/
theorem C3_happy_path :
    acqAbstract ⟨true, false⟩ = .Idle ∧
    make_magread_step ⟨true, false⟩ (.ok []) =
      (⟨false, false⟩, none, [.write 1 10 mag_addr]) ∧
    acqAbstract ⟨false, false⟩ = .Triggered ∧
    (∀ b : List Nat, b ≠ [1] →
      make_magread_step ⟨false, false⟩ (.ok b) =
        (⟨false, false⟩, none, [.read 1 2 mag_addr])) ∧
    make_magread_step ⟨false, false⟩ (.ok [1]) =
      (⟨false, true⟩, some 1, [.read 1 2 mag_addr]) ∧
    acqAbstract ⟨false, true⟩ = .Ready ∧
    (∀ (trig : BusOutcome) (sts : List BusOutcome) (b : List Nat),
      (get_mag_raw true trig sts (.ok b)).1 = some (b, false)) := by
  refine ⟨rfl, rfl, rfl, ?_, rfl, rfl, fun _ _ _ => rfl⟩
  intro b hb
  simp [make_magread_step, hb]

/-- C3 witness: the not-ready branch instantiated at the concrete status
byte `b'\x00'`. -/
theorem C3_happy_path_witness :
    make_magread_step ⟨false, false⟩ (.ok [0]) =
      (⟨false, false⟩, none, [.read 1 2 mag_addr]) :=
  C3_happy_path.2.2.2.1 [0] (by decide)

/-- C4 counterexample: a failing status read inside a poller invocation
returns `2` but leaves the captured state unchanged: the abstract state
after the failure is Triggered, not Error, and the very next invocation
with a ready status still returns DataReady, which an Error transition
would preclude. -/
theorem C4_counterexample :
    (make_magread_step ⟨false, false⟩ .fail).2.1 = some 2 ∧
    (make_magread_step ⟨false, false⟩ .fail).1 = ⟨false, false⟩ ∧
    acqAbstract (make_magread_step ⟨false, false⟩ .fail).1 ≠ .Error ∧
    (make_magread_step (make_magread_step ⟨false, false⟩ .fail).1 (.ok [1])).2.1
      = some 1 := by
  decide

/-- C4 amended: when a transport operation inside a poller invocation
fails, that invocation returns `2`, a value distinct from Pending (`None`)
and DataReady (`1`), and the acquisition state is left unchanged — the
driver keeps no Error state, so the next invocation simply retries the
trigger or the status read. -/
theorem C4_failed_status_state_unchanged (s : MagState) :
    (make_magread_step s .fail).1 = s ∧
    (make_magread_step s .fail).2.1 = some 2 ∧
    (some 2 : Option Nat) ≠ none ∧
    (some 2 : Option Nat) ≠ some 1 := by
  refine ⟨?_, ?_, by decide, by decide⟩ <;>
    · unfold make_magread_step
      by_cases h : s.init <;> simp [h]

/-- C5 counterexample: after one poll from a fresh poller the abstract
state is Triggered, and calling `get_mag_raw` in that state (with
`mag_ready` still false) issues a fresh magnetometer trigger write — a new
trigger issued while the acquisition state is Triggered, which the claim
says never happens. -/
theorem C5_counterexample :
    (make_magread_step ⟨true, false⟩ (.ok [])).1 = ⟨false, false⟩ ∧
    acqAbstract ⟨false, false⟩ = .Triggered ∧
    (BusOp.write 1 10 mag_addr) ∈
      (get_mag_raw false (.ok []) [.ok [1]] (.ok [1, 0, 2, 0, 3, 0])).2 := by
  decide

/-- C5 amended: the re-trigger guard covers only the Ready state: while
`mag_ready` is true, `get_mag_raw` issues no trigger write; and once a
poller's first trigger write has *succeeded* its captured `init` is
cleared, after which that poller never issues a trigger again nor returns
to `init = true`.  The guard fails elsewhere: `get_mag_raw` called while
merely Triggered (pending poll, `mag_ready` false) issues a fresh trigger
write, and a poller whose first trigger write raised `OSError` keeps
`init = true` and re-issues the trigger on its next invocation. -/
theorem C5_trigger_guard_only_when_ready (trig : BusOutcome)
    (sts : List BusOutcome) (burst : BusOutcome) (mr mr0 : Bool)
    (bus : BusOutcome) (bs : List Nat) :
    (BusOp.write 1 10 mag_addr) ∉ (get_mag_raw true trig sts burst).2 ∧
    (BusOp.write 1 10 mag_addr) ∉ (make_magread_step ⟨false, mr⟩ bus).2.2 ∧
    (make_magread_step ⟨false, mr⟩ bus).1.init = false ∧
    (make_magread_step ⟨true, mr0⟩ (.ok bs)).1.init = false ∧
    (make_magread_step ⟨true, mr0⟩ .fail).1.init = true ∧
    (BusOp.write 1 10 mag_addr) ∈ (make_magread_step ⟨true, mr0⟩ .fail).2.2 := by
  refine ⟨?_, ?_, ?_, rfl, rfl, ?_⟩
  · cases burst <;> simp [get_mag_raw]
  · cases bus with
    | fail => simp [make_magread_step]
    | ok b =>
      by_cases h : b = [1] <;> simp [make_magread_step, h]
  · cases bus with
    | fail => simp [make_magread_step]
    | ok b =>
      by_cases h : b = [1] <;> simp [make_magread_step, h]
  · simp [make_magread_step]

/-- C6 counterexample: at the requested rate 3000 Hz the source writes the
divider `int(8000/3000 - 1) = 1` (truncation), while the claimed formula
`round(8000/3000) - 1` clamped to 0-255 gives `2`. -/
theorem C6_counterexample :
    rateDiv 3000 = 1 ∧ specRateDiv 3000 = 2 ∧ rateDiv 3000 ≠ specRateDiv 3000 := by
  have h1 : rateDiv 3000 = 1 := by
    unfold rateDiv pyTrunc
    norm_num
  have h2 : specRateDiv 3000 = 2 := by
    unfold specRateDiv
    rw [round_eq]
    norm_num
  exact ⟨h1, h2, by rw [h1, h2]; decide⟩

/-- C6 amended: for every positive requested rate `hz`, `sample_rate`
writes to the divider register the value `int(8000/hz - 1)` (truncation
toward zero, not rounding) clamped above at 255; for positive `hz` the
truncated value is already nonnegative, so the written byte lies in 0-255;
and the returned actual rate is recomputed from the divider read back as
`8000/(divider + 1)`. -/
theorem C6_truncated_divider (hz : ℚ) (hpos : 0 < hz) :
    0 ≤ rateDiv hz ∧ rateDiv hz ≤ 255 ∧
    rateDiv hz =
      (if pyTrunc (8000 / hz - 1) > 255 then 255 else pyTrunc (8000 / hz - 1)) ∧
    sampleRateRet hz = 8000 / ((rateDiv hz : ℚ) + 1) := by
  have hq : (0 : ℚ) < 8000 / hz := by positivity
  have h0 : 0 ≤ pyTrunc (8000 / hz - 1) := by
    rcases le_or_lt 0 (8000 / hz - 1) with h | h
    · rw [pyTrunc, if_pos h]
      exact Int.le_floor.mpr (by exact_mod_cast h)
    · rw [pyTrunc, if_neg (not_le.mpr h)]
      have h1 : (-1 : ℚ) < 8000 / hz - 1 := by linarith
      have h2 : (-1 : ℤ) < ⌈8000 / hz - 1⌉ := Int.lt_ceil.mpr (by exact_mod_cast h1)
      omega
  refine ⟨?_, ?_, rfl, rfl⟩
  · unfold rateDiv
    split <;> omega
  · unfold rateDiv
    split <;> omega

/-- C6 witness: the amended statement instantiated at the concrete request
of 3000 Hz. -/
theorem C6_truncated_divider_witness :
    0 ≤ rateDiv 3000 ∧ rateDiv 3000 ≤ 255 ∧
    rateDiv 3000 =
      (if pyTrunc ((8000 : ℚ) / 3000 - 1) > 255 then 255
       else pyTrunc ((8000 : ℚ) / 3000 - 1)) ∧
    sampleRateRet 3000 = 8000 / ((rateDiv 3000 : ℚ) + 1) :=
  C6_truncated_divider 3000 (by norm_num)

/-- Helper: when the requested rate keeps `8000/hz` within `[1, 256]`, the
clamp at 255 is inactive and the divider is exactly `⌊8000/hz - 1⌋`. -/
theorem rateDiv_eq_floor (hz : ℚ) (h1 : 1 ≤ 8000 / hz) (h2 : 8000 / hz ≤ 256) :
    rateDiv hz = ⌊8000 / hz - 1⌋ := by
  have h0 : (0 : ℚ) ≤ 8000 / hz - 1 := by linarith
  have hfl : pyTrunc (8000 / hz - 1) = ⌊8000 / hz - 1⌋ := by
    rw [pyTrunc, if_pos h0]
  have h255 : ⌊8000 / hz - 1⌋ ≤ 255 := by
    have h : ⌊8000 / hz - 1⌋ ≤ ⌊(255 : ℚ)⌋ := Int.floor_le_floor (by linarith)
    simpa using h
  unfold rateDiv
  rw [hfl, if_neg (by omega)]

/-- C7 counterexample: at the requested rate 31 Hz the ideal divider 257
is clamped to 255, so the returned rate is `8000/256 = 31.25`, which
exceeds the requested 31 Hz by 0.25 — more than the one-divider-step
margin `8000/256 - 8000/257` (about 0.122) at the chosen divider: the
claimed bound `actual ≤ requested + one step` (and a fortiori
`actual ≤ requested`) is false at 31 Hz. -/
theorem C7_counterexample :
    ¬ (sampleRateRet 31 ≤ 31 + stepMargin 31) ∧ ¬ (sampleRateRet 31 ≤ 31) := by
  have hrd : rateDiv 31 = 255 := by
    unfold rateDiv pyTrunc
    norm_num
  have h1 : sampleRateRet 31 = 125 / 4 := by
    unfold sampleRateRet
    rw [hrd]
    norm_num
  have h2 : stepMargin 31 = 125 / 4 - 8000 / 257 := by
    unfold stepMargin
    rw [hrd]
    norm_num
  constructor
  · rw [h1, h2]
    norm_num
  · rw [h1]
    norm_num

/-- C7 amended: on `[8000/256, 8000]` Hz (31.25 Hz is the lowest rate the
8-bit divider can represent) the actual rate is at least the requested
rate and exceeds it by less than one divider step
`8000/(d+1) - 8000/(d+2)` at the written divider `d`; and on the claim's
full range `[31, 8000]` the actual rate is monotone non-decreasing in the
requested rate.  Below 31.25 Hz the clamp at divider 255 makes the error
exceed one step, as the counterexample at 31 Hz shows. -/
theorem C7_rate_bound_and_monotone :
    (∀ hz : ℚ, 8000 / 256 ≤ hz → hz ≤ 8000 →
      hz ≤ sampleRateRet hz ∧ sampleRateRet hz < hz + stepMargin hz) ∧
    (∀ ha hb : ℚ, 31 ≤ ha → ha ≤ hb → hb ≤ 8000 →
      sampleRateRet ha ≤ sampleRateRet hb) := by
  constructor
  · intro hz hlo hhi
    have hpos : 0 < hz := lt_of_lt_of_le (by norm_num) hlo
    have hq1 : 1 ≤ 8000 / hz := (one_le_div hpos).mpr hhi
    have hq256 : 8000 / hz ≤ 256 := by
      rw [div_le_iff₀ hpos]
      norm_num at hlo ⊢
      linarith
    have hrd := rateDiv_eq_floor hz hq1 hq256
    have hd0 : (0 : ℤ) ≤ ⌊8000 / hz - 1⌋ := Int.le_floor.mpr (by push_cast; linarith)
    have hlowf : ((⌊8000 / hz - 1⌋ : ℚ)) ≤ 8000 / hz - 1 := Int.floor_le _
    have hhighf : 8000 / hz - 1 < ⌊8000 / hz - 1⌋ + 1 := Int.lt_floor_add_one _
    have hQmul : 8000 / hz * hz = 8000 := div_mul_cancel₀ _ (ne_of_gt hpos)
    have hd0Q : (0 : ℚ) ≤ ((⌊8000 / hz - 1⌋ : ℤ) : ℚ) := by exact_mod_cast hd0
    have hD1pos : (0 : ℚ) < ((⌊8000 / hz - 1⌋ : ℤ) : ℚ) + 1 := by linarith
    have hD2pos : (0 : ℚ) < ((⌊8000 / hz - 1⌋ : ℤ) : ℚ) + 2 := by linarith
    constructor
    · unfold sampleRateRet
      rw [hrd, le_div_iff₀ hD1pos]
      have hmul := mul_le_mul_of_nonneg_right
        (show ((⌊8000 / hz - 1⌋ : ℤ) : ℚ) + 1 ≤ 8000 / hz by linarith)
        (le_of_lt hpos)
      nlinarith [hmul, hQmul]
    · unfold sampleRateRet stepMargin
      rw [hrd]
      have hkey : 8000 / (((⌊8000 / hz - 1⌋ : ℤ) : ℚ) + 2) < hz := by
        rw [div_lt_iff₀ hD2pos]
        have hmul := mul_lt_mul_of_pos_right
          (show (8000 / hz : ℚ) < ((⌊8000 / hz - 1⌋ : ℤ) : ℚ) + 2 by linarith)
          hpos
        nlinarith [hmul, hQmul]
      linarith
  · intro ha hb h31 hab h8k
    have hapos : 0 < ha := by linarith
    have hbpos : 0 < hb := by linarith
    have hqb1 : 1 ≤ 8000 / hb := (one_le_div hbpos).mpr h8k
    have hqba : 8000 / hb ≤ 8000 / ha := by
      rw [div_le_div_iff₀ hbpos hapos]
      nlinarith
    have hfb : pyTrunc (8000 / hb - 1) = ⌊8000 / hb - 1⌋ := by
      rw [pyTrunc, if_pos (by linarith)]
    have hfa : pyTrunc (8000 / ha - 1) = ⌊8000 / ha - 1⌋ := by
      rw [pyTrunc, if_pos (by linarith)]
    have hmono : ⌊8000 / hb - 1⌋ ≤ ⌊8000 / ha - 1⌋ :=
      Int.floor_le_floor (by linarith)
    have hb0 : (0 : ℤ) ≤ ⌊8000 / hb - 1⌋ := Int.le_floor.mpr (by push_cast; linarith)
    have hDb : 0 ≤ rateDiv hb ∧ rateDiv hb ≤ rateDiv ha := by
      unfold rateDiv
      rw [hfa, hfb]
      constructor <;> (split_ifs <;> omega)
    have hDbQ : (0 : ℚ) ≤ ((rateDiv hb : ℤ) : ℚ) := by exact_mod_cast hDb.1
    have hDaQ : ((rateDiv hb : ℤ) : ℚ) ≤ ((rateDiv ha : ℤ) : ℚ) := by
      exact_mod_cast hDb.2
    have hpb : (0 : ℚ) < ((rateDiv hb : ℤ) : ℚ) + 1 := by linarith
    have hpa : (0 : ℚ) < ((rateDiv ha : ℤ) : ℚ) + 1 := by linarith
    unfold sampleRateRet
    rw [div_le_div_iff₀ hpa hpb]
    nlinarith

/-- C7 witness: the amended bound instantiated at 100 Hz and the
monotonicity instantiated at the pair (100 Hz, 200 Hz). -/
theorem C7_rate_bound_and_monotone_witness :
    ((100 : ℚ) ≤ sampleRateRet 100 ∧ sampleRateRet 100 < 100 + stepMargin 100) ∧
    sampleRateRet 100 ≤ sampleRateRet 200 :=
  ⟨C7_rate_bound_and_monotone.1 100 (by norm_num) (by norm_num),
   C7_rate_bound_and_monotone.2 100 200 (by norm_num) (by norm_num) (by norm_num)⟩

/-- C8: after bring-up, when the trim read succeeds `mag_correction` is
`0.5*(t - 128)/128 + 1` per trim byte, so trim bytes 0, 128 and 255 give
coefficients 0.5, 1.0 and 1.49609375 (= 383/256); when the trim read
raises a transport error the neutral coefficients (1.0, 1.0, 1.0) set
before the try block are kept. -/
theorem C8_mag_corrections :
    (∀ t0 t1 t2 : Nat,
      mag_correction_init (some (t0, t1, t2)) =
        ((1 / 2 : ℚ) * ((t0 : ℚ) - 128) / 128 + 1,
         (1 / 2 : ℚ) * ((t1 : ℚ) - 128) / 128 + 1,
         (1 / 2 : ℚ) * ((t2 : ℚ) - 128) / 128 + 1)) ∧
    mag_correction_init none = (1, 1, 1) ∧
    magCorrectionCoeff 0 = 1 / 2 ∧
    magCorrectionCoeff 128 = 1 ∧
    magCorrectionCoeff 255 = 383 / 256 := by
  refine ⟨fun t0 t1 t2 => rfl, rfl, ?_, ?_, ?_⟩ <;>
    · unfold magCorrectionCoeff
      norm_num

/-- C9: on any six-byte raw sample and any calibration coefficients, the
requested axes evaluate per the remapped formulas — X from the
little-endian signed pair `raw[2:4]` times `cx`, Y from `raw[0:2]` times
`cy`, Z from the negated `raw[4:6]` pair times `cz`, each divided by
3.33198 — and the output of a concatenated selection is the concatenation
of the outputs, so requesting a subset of axes never alters any value. -/
theorem C9_mag_axis_remap (raw : List Nat) (corr : ℚ × ℚ × ℚ) :
    get_mag ['x'] raw corr =
      [((le16 (raw.getD 2 0) (raw.getD 3 0) : ℤ) : ℚ) * corr.1 / magScale] ∧
    get_mag ['y'] raw corr =
      [((le16 (raw.getD 0 0) (raw.getD 1 0) : ℤ) : ℚ) * corr.2.1 / magScale] ∧
    get_mag ['z'] raw corr =
      [-((le16 (raw.getD 4 0) (raw.getD 5 0) : ℤ) : ℚ) * corr.2.2 / magScale] ∧
    (∀ s t : List Char,
      get_mag (s ++ t) raw corr = get_mag s raw corr ++ get_mag t raw corr) := by
  refine ⟨?_, ?_, ?_, fun s t => ?_⟩ <;>
    simp [get_mag, magComponent]

/-- C10: for `accel_range` and `gyro_range`, a failing transport read makes
the method return `None` with the cached range index (`self._ar` /
`self._gr`) unchanged — this covers both a failing read-back and a failing
range write, which skips the read-back; when the read-back succeeds the
cache is set exactly to the index derived from the byte read back (or,
when the write failed, left untouched with `None` returned).  The cache is
therefore never updated except from a successful read-back. -/
theorem C10_range_cache_update :
    (∀ (arg : Option Nat) (wr : BusOutcome) (ar : Nat),
      accel_range arg wr .fail ar = (none, ar)) ∧
    (∀ (arg : Option Nat) (wr : BusOutcome) (b : List Nat) (ar : Nat),
      accel_range arg wr (.ok b) ar = (none, ar) ∨
      accel_range arg wr (.ok b) ar = (some (b.getD 0 0 / 8), b.getD 0 0 / 8)) ∧
    (∀ (arg : Option Nat) (wr : BusOutcome) (gr : Nat),
      gyro_range arg wr .fail gr = (none, gr)) ∧
    (∀ (arg : Option Nat) (wr : BusOutcome) (b : List Nat) (gr : Nat),
      gyro_range arg wr (.ok b) gr = (none, gr) ∨
      gyro_range arg wr (.ok b) gr = (some (b.getD 0 0 / 8), b.getD 0 0 / 8)) := by
  refine ⟨?_, ?_, ?_, ?_⟩
  · intro arg wr ar
    unfold accel_range
    rcases arg with _ | i
    · simp
    · rcases wr with _ | bs <;> by_cases h : i < 4 <;> simp [h]
  · intro arg wr b ar
    unfold accel_range
    rcases arg with _ | i
    · simp
    · rcases wr with _ | bs <;> by_cases h : i < 4 <;> simp [h]
  · intro arg wr gr
    unfold gyro_range
    rcases arg with _ | i
    · simp
    · rcases wr with _ | bs <;> by_cases h : i < 4 <;> simp [h]
  · intro arg wr b gr
    unfold gyro_range
    rcases arg with _ | i
    · simp
    · rcases wr with _ | bs <;> by_cases h : i < 4 <;> simp [h]
